import Mathlib

/-!
Shallow embedding of the knee-alignment measurement app (`src/app.py`).

The embedding covers: the angle primitive `angle_between_lines`
(app.py lines 8-16), numpy's `arctan2`/`degrees` conventions, the
canonical-to-display transform used when plotting stored points
(lines 73-78) and the display-to-canonical transform used when saving
an entered point (lines 97-102), the landmark store and the measurement
assembler (lines 135-149), the plotting pass over stored points
(lines 69-80), and the hip-center circle-fit step (lines 124-132),
where `numpy.linalg.lstsq` is specified through its documented
characterisation as the minimum-norm least-squares solution.
-/

namespace KneeAlign

noncomputable section

open Real

/-- numpy's `arctan2 y x`: the angle of the vector `(x, y)`, in `(-π, π]`.
Branches follow the numpy convention, with `arctan2 0 0 = 0`
(signed floating-point zeros are not modelled). -/
def atan2 (y x : ℝ) : ℝ :=
  if 0 < x then Real.arctan (y / x)
  else if x < 0 then
    (if 0 ≤ y then Real.arctan (y / x) + π else Real.arctan (y / x) - π)
  else
    (if 0 < y then π / 2 else if y < 0 then -(π / 2) else 0)

/-- numpy's `degrees`: radians to degrees. -/
def degrees (t : ℝ) : ℝ := t * 180 / π

/-- `angle_between_lines(a1, a2, b1, b2)` from app.py lines 8-16:
direction vectors `v1 = a2 - a1`, `v2 = b2 - b1`, the absolute
difference of their `arctan2` angles in degrees, values above 180
replaced by `360 -` the value. -/
def angle_between_lines (a1 a2 b1 b2 : ℝ × ℝ) : ℝ :=
  let v1 : ℝ × ℝ := (a2.1 - a1.1, a2.2 - a1.2)
  let v2 : ℝ × ℝ := (b2.1 - b1.1, b2.2 - b1.2)
  let angle_rad := atan2 v2.2 v2.1 - atan2 v1.2 v1.1
  let angle_deg := |degrees angle_rad|
  if angle_deg > 180 then 360 - angle_deg else angle_deg

/-- Real-valued modulus `a mod b = a - b * ⌊a / b⌋`, used to state the
folding law of the spec. -/
def rmod (a b : ℝ) : ℝ := a - b * (⌊a / b⌋ : ℤ)

/- ### Range of `atan2` -/

theorem atan2_le_pi (y x : ℝ) : atan2 y x ≤ π := by
  unfold atan2
  have hpi := Real.pi_pos
  split_ifs with h1 h2 h3 h4 h5
  · have := Real.arctan_lt_pi_div_two (y / x)
    linarith
  · have harg : y / x ≤ 0 := div_nonpos_of_nonneg_of_nonpos h3 (le_of_lt h2)
    have : Real.arctan (y / x) ≤ Real.arctan 0 :=
      Real.arctan_strictMono.monotone harg
    rw [Real.arctan_zero] at this
    linarith
  · have := Real.arctan_lt_pi_div_two (y / x)
    linarith
  · linarith
  · linarith
  · linarith

theorem neg_pi_lt_atan2 (y x : ℝ) : -π < atan2 y x := by
  unfold atan2
  have hpi := Real.pi_pos
  split_ifs with h1 h2 h3 h4 h5
  · have := Real.neg_pi_div_two_lt_arctan (y / x)
    linarith
  · have := Real.neg_pi_div_two_lt_arctan (y / x)
    linarith
  · have harg : 0 < y / x := div_pos_of_neg_of_neg (lt_of_not_le h3) h2
    have : Real.arctan 0 < Real.arctan (y / x) := Real.arctan_strictMono harg
    rw [Real.arctan_zero] at this
    linarith
  · linarith
  · linarith
  · linarith

theorem atan2_zero_zero : atan2 0 0 = 0 := by
  unfold atan2
  norm_num

/-- The absolute raw angle difference, in degrees, is below 360. -/
theorem abs_degrees_lt_360 (y2 x2 y1 x1 : ℝ) :
    |degrees (atan2 y2 x2 - atan2 y1 x1)| < 360 := by
  have h2u := atan2_le_pi y2 x2
  have h2l := neg_pi_lt_atan2 y2 x2
  have h1u := atan2_le_pi y1 x1
  have h1l := neg_pi_lt_atan2 y1 x1
  have hpi := Real.pi_pos
  rw [abs_lt]
  unfold degrees
  constructor
  · rw [lt_div_iff hpi]
    linarith
  · rw [div_lt_iff hpi]
    linarith

theorem rmod_eq_self (t : ℝ) (h0 : 0 ≤ t) (h1 : t < 360) : rmod t 360 = t := by
  unfold rmod
  have hf : ⌊t / 360⌋ = 0 := by
    rw [Int.floor_eq_zero_iff, Set.mem_Ico]
    exact ⟨div_nonneg h0 (by norm_num), (div_lt_one (by norm_num)).mpr h1⟩
  rw [hf]
  push_cast
  ring

/-- C10: the angle primitive is total: it returns a value in [0, 180] for
every input, including degenerate ones where `a1 = a2` or `b1 = b2`; the
zero-length direction vector is silently given direction angle
`atan2 0 0 = 0` rather than an error or sentinel. -/
theorem angle_between_lines_total (a1 a2 b1 b2 : ℝ × ℝ) :
    0 ≤ angle_between_lines a1 a2 b1 b2 ∧
      angle_between_lines a1 a2 b1 b2 ≤ 180 ∧ atan2 0 0 = 0 := by
  refine ⟨?_, ?_, atan2_zero_zero⟩ <;>
  · simp only [angle_between_lines]
    have h0 : (0 : ℝ) ≤
        |degrees (atan2 (b2.2 - b1.2) (b2.1 - b1.1) -
          atan2 (a2.2 - a1.2) (a2.1 - a1.1))| := abs_nonneg _
    have h1 := abs_degrees_lt_360 (b2.2 - b1.2) (b2.1 - b1.1)
      (a2.2 - a1.2) (a2.1 - a1.1)
    split_ifs with h <;> linarith

/-- C4: folding law of the angle primitive: for non-degenerate segments the
returned value is `min (|θ| mod 360) (360 - |θ| mod 360)` where `θ` is the
difference of the two `atan2` direction angles in degrees, and it lies in
[0, 180]. -/
theorem angle_between_lines_folding (a1 a2 b1 b2 : ℝ × ℝ)
    (hA : a1 ≠ a2) (hB : b1 ≠ b2) :
    angle_between_lines a1 a2 b1 b2 =
      min (rmod (|degrees (atan2 (b2.2 - b1.2) (b2.1 - b1.1) -
            atan2 (a2.2 - a1.2) (a2.1 - a1.1))|) 360)
        (360 - rmod (|degrees (atan2 (b2.2 - b1.2) (b2.1 - b1.1) -
            atan2 (a2.2 - a1.2) (a2.1 - a1.1))|) 360) ∧
      0 ≤ angle_between_lines a1 a2 b1 b2 ∧
        angle_between_lines a1 a2 b1 b2 ≤ 180 := by
  have h0 : (0 : ℝ) ≤
      |degrees (atan2 (b2.2 - b1.2) (b2.1 - b1.1) -
        atan2 (a2.2 - a1.2) (a2.1 - a1.1))| := abs_nonneg _
  have h1 := abs_degrees_lt_360 (b2.2 - b1.2) (b2.1 - b1.1)
    (a2.2 - a1.2) (a2.1 - a1.1)
  rw [rmod_eq_self _ h0 h1]
  simp only [angle_between_lines]
  split_ifs with h
  · exact ⟨(min_eq_right (by linarith)).symm, by linarith, by linarith⟩
  · exact ⟨(min_eq_left (by linarith)).symm, by linarith, by linarith⟩

/-- Witness for C4 at the right-angle example `a = (0,0)→(1,0)`,
`b = (0,0)→(0,1)`. -/
theorem angle_between_lines_folding_witness :
    angle_between_lines (0, 0) (1, 0) (0, 0) (0, 1) =
      min (rmod (|degrees (atan2 ((1:ℝ) - 0) ((0:ℝ) - 0) -
            atan2 ((0:ℝ) - 0) ((1:ℝ) - 0))|) 360)
        (360 - rmod (|degrees (atan2 ((1:ℝ) - 0) ((0:ℝ) - 0) -
            atan2 ((0:ℝ) - 0) ((1:ℝ) - 0))|) 360) ∧
      0 ≤ angle_between_lines (0, 0) (1, 0) (0, 0) (0, 1) ∧
        angle_between_lines (0, 0) (1, 0) (0, 0) (0, 1) ≤ 180 := by
  have h := angle_between_lines_folding (0, 0) (1, 0) (0, 0) (0, 1)
    (by norm_num [Prod.ext_iff]) (by norm_num [Prod.ext_iff])
  exact h

/- ### Coordinate transforms (app.py lines 73-78 and 97-102) -/

/-- Canonical-to-display transform applied to each stored point before
plotting (app.py lines 73-78): flips first, then the rotation step
`x, y = y, width - x - 1`. `width` and `height` are the dimensions of the
displayed (already flipped/rotated) image taken at line 45. -/
def plotTransform (fh fv r90 : Bool) (width height : ℝ) (p : ℝ × ℝ) : ℝ × ℝ :=
  let x := if fh then width - p.1 - 1 else p.1
  let y := if fv then height - p.2 - 1 else p.2
  if r90 then (y, width - x - 1) else (x, y)

/-- Display-to-canonical transform applied to an entered coordinate before
saving (app.py lines 97-102): flips first, then the rotation step
`x, y = height - y - 1, x`. -/
def saveTransform (fh fv r90 : Bool) (width height : ℝ) (p : ℝ × ℝ) : ℝ × ℝ :=
  let x := if fh then width - p.1 - 1 else p.1
  let y := if fv then height - p.2 - 1 else p.2
  if r90 then (height - y - 1, x) else (x, y)

/- ### Landmark store and measurement assembler (app.py lines 47-57, 135-149) -/

/-- The landmark store `st.session_state.points` (app.py lines 48-57):
eight named optional points in canonical image space. -/
structure LandmarkSet where
  hip_center : Option (ℝ × ℝ)
  femoral_condyles_center : Option (ℝ × ℝ)
  medial_condyle : Option (ℝ × ℝ)
  lateral_condyle : Option (ℝ × ℝ)
  medial_tibial_plateau : Option (ℝ × ℝ)
  lateral_tibial_plateau : Option (ℝ × ℝ)
  tibia_center : Option (ℝ × ℝ)
  ankle_center : Option (ℝ × ℝ)

/-- The stored points in dict insertion order (app.py lines 48-57). -/
def landmarkList (s : LandmarkSet) : List (Option (ℝ × ℝ)) :=
  [s.hip_center, s.femoral_condyles_center, s.medial_condyle, s.lateral_condyle,
   s.medial_tibial_plateau, s.lateral_tibial_plateau, s.tibia_center,
   s.ankle_center]

/-- The plotting pass over stored points (app.py lines 69-80): every
present point is read, transformed for display and emitted as a marker;
the store itself is passed through unchanged, exactly as the loop never
writes to `st.session_state.points`. -/
def plotStep (fh fv r90 : Bool) (width height : ℝ) (s : LandmarkSet) :
    LandmarkSet × List (ℝ × ℝ) :=
  (s, (landmarkList s).filterMap
    (fun o => o.map (plotTransform fh fv r90 width height)))

/-- The four reported angles (app.py lines 146-149); `ldafa` keeps the
variable name used in the source. -/
structure MeasurementResult where
  hka : ℝ
  jlca : ℝ
  ldafa : ℝ
  mpta : ℝ

/-- The measurement assembler (app.py lines 135-149): the four angles are
computed exactly when every stored landmark is present (`all(p is not None
...)`), with the fixed argument pairings of lines 146-149. -/
def computeAngles (s : LandmarkSet) : Option MeasurementResult :=
  match s.hip_center, s.femoral_condyles_center, s.medial_condyle,
      s.lateral_condyle, s.medial_tibial_plateau, s.lateral_tibial_plateau,
      s.tibia_center, s.ankle_center with
  | some hc, some fc, some mc, some lc, some mtp, some ltp, some tc, some ac =>
      some ⟨angle_between_lines hc fc ac fc,
            angle_between_lines mc lc mtp ltp,
            angle_between_lines hc fc mc lc,
            angle_between_lines ac tc mtp ltp⟩
  | _, _, _, _, _, _, _, _ => none

/- ### C1: round trip of the two transforms -/

/-- C1 counterexample: on a square 4×4 image with `flip_horizontal` and
`rotate_90` set (and `flip_vertical` clear), the in-bounds canonical point
(0,0) is plotted at display position (0,0), but saving the display position
(0,0) stores the canonical point (3,3), not (0,0). -/
theorem round_trip_counterexample :
    saveTransform true false true 4 4
        (plotTransform true false true 4 4 (0, 0)) = (3, 3) ∧
      ((3, 3) : ℝ × ℝ) ≠ (0, 0) := by
  constructor
  · norm_num [plotTransform, saveTransform]
  · norm_num [Prod.ext_iff]

/-- C1 amended: the plot-then-save round trip returns the original
canonical point whenever `rotate_90` is off (any flips, any dimensions),
and, when `rotate_90` is on, whenever the displayed image is square and
the two flip flags agree. -/
theorem round_trip_amended (fh fv r90 : Bool) (w h x y : ℝ)
    (hcond : r90 = false ∨ (w = h ∧ fh = fv)) :
    saveTransform fh fv r90 w h (plotTransform fh fv r90 w h (x, y)) =
      (x, y) := by
  rcases hcond with hr | ⟨hw, hf⟩
  · subst hr
    cases fh <;> cases fv <;>
      simp [plotTransform, saveTransform, Prod.ext_iff] <;>
        (try constructor) <;> ring
  · subst hw
    subst hf
    cases fh <;> cases r90 <;>
      simp [plotTransform, saveTransform, Prod.ext_iff] <;>
        (try constructor) <;> ring

/-- Witness for C1 amended: non-square 10×20 image, both flips on,
rotation off. -/
theorem round_trip_amended_witness :
    saveTransform true true false 10 20
        (plotTransform true true false 10 20 (3, 4)) = (3, 4) :=
  round_trip_amended true true false 10 20 3 4 (Or.inl rfl)

/- ### C5, C8, C9: assembler pairings, precondition, view-only transforms -/

/-- C5: whenever all eight landmarks are present, the four clinical angles
are computed by the shared angle primitive with exactly the pairings
HKA = (hc, fc, ac, fc), JLCA = (mc, lc, mtp, ltp), LDFA = (hc, fc, mc, lc),
MPTA = (ac, tc, mtp, ltp). -/
theorem computeAngles_pairings (hc fc mc lc mtp ltp tc ac : ℝ × ℝ) :
    computeAngles ⟨some hc, some fc, some mc, some lc, some mtp, some ltp,
        some tc, some ac⟩ =
      some ⟨angle_between_lines hc fc ac fc,
            angle_between_lines mc lc mtp ltp,
            angle_between_lines hc fc mc lc,
            angle_between_lines ac tc mtp ltp⟩ := rfl

/-- C8: the four measurements are computed if and only if all eight entries
of the landmark store are filled; with any landmark missing the assembler
returns nothing at all (no exception, no partial result). -/
theorem computeAngles_iff_complete (s : LandmarkSet) :
    (∃ r, computeAngles s = some r) ↔
      (s.hip_center ≠ none ∧ s.femoral_condyles_center ≠ none ∧
        s.medial_condyle ≠ none ∧ s.lateral_condyle ≠ none ∧
        s.medial_tibial_plateau ≠ none ∧ s.lateral_tibial_plateau ≠ none ∧
        s.tibia_center ≠ none ∧ s.ankle_center ≠ none) := by
  rcases s with ⟨o1, o2, o3, o4, o5, o6, o7, o8⟩
  cases o1 <;> cases o2 <;> cases o3 <;> cases o4 <;>
    cases o5 <;> cases o6 <;> cases o7 <;> cases o8 <;>
      simp [computeAngles]

/-- C9: the display transform flags are a pure view concern: the plotting
pass leaves every stored canonical landmark unchanged for every setting of
the three flags. -/
theorem plotStep_preserves_store (fh fv r90 : Bool) (w h : ℝ)
    (s : LandmarkSet) : (plotStep fh fv r90 w h s).1 = s := rfl

/- ### C2: the end-to-end straight-leg scenario -/

lemma atan2_150_0 : atan2 150 0 = π / 2 := by
  unfold atan2
  norm_num

lemma atan2_neg150_0 : atan2 (-150) 0 = -(π / 2) := by
  unfold atan2
  norm_num

lemma atan2_neg50_0 : atan2 (-50) 0 = -(π / 2) := by
  unfold atan2
  norm_num

lemma atan2_0_20 : atan2 0 20 = 0 := by
  unfold atan2
  norm_num [Real.arctan_zero]

lemma hka_eval :
    angle_between_lines (100, 50) (100, 200) (100, 350) (100, 200) = 180 := by
  have hπ := Real.pi_ne_zero
  simp only [angle_between_lines]
  norm_num [atan2_neg150_0, atan2_150_0]
  have h1 : degrees (-(π / 2) - π / 2) = -180 := by
    unfold degrees
    field_simp
    ring
  rw [h1]
  norm_num

lemma jlca_eval :
    angle_between_lines (90, 210) (110, 210) (90, 220) (110, 220) = 0 := by
  simp only [angle_between_lines]
  norm_num [atan2_0_20, degrees]

lemma ldafa_eval :
    angle_between_lines (100, 50) (100, 200) (90, 210) (110, 210) = 90 := by
  have hπ := Real.pi_ne_zero
  simp only [angle_between_lines]
  norm_num [atan2_0_20, atan2_150_0]
  have h1 : degrees (-(π / 2)) = -90 := by
    unfold degrees
    field_simp
    ring
  rw [h1]
  norm_num

lemma mpta_eval :
    angle_between_lines (100, 350) (100, 300) (90, 220) (110, 220) = 90 := by
  have hπ := Real.pi_ne_zero
  simp only [angle_between_lines]
  norm_num [atan2_0_20, atan2_neg50_0]
  have h1 : degrees (π / 2) = 90 := by
    unfold degrees
    field_simp
    ring
  rw [h1]
  norm_num

/-- The landmark set of the end-to-end scenario of the spec. -/
def scenarioStore : LandmarkSet :=
  ⟨some (100, 50), some (100, 200), some (90, 210), some (110, 210),
   some (90, 220), some (110, 220), some (100, 300), some (100, 350)⟩

/-- C2 counterexample: on the straight-leg scenario the code does not
return HKA = 0: the mechanical-axis vectors are opposite, so the folded
absolute angle is 180, and the computed result differs from
(HKA, JLCA, LDFA, MPTA) = (0, 0, 90, 90). -/
theorem scenario_counterexample :
    computeAngles scenarioStore ≠ some ⟨0, 0, 90, 90⟩ := by
  show some (MeasurementResult.mk
        (angle_between_lines (100, 50) (100, 200) (100, 350) (100, 200))
        (angle_between_lines (90, 210) (110, 210) (90, 220) (110, 220))
        (angle_between_lines (100, 50) (100, 200) (90, 210) (110, 210))
        (angle_between_lines (100, 350) (100, 300) (90, 220) (110, 220))) ≠
      some ⟨0, 0, 90, 90⟩
  rw [hka_eval, jlca_eval, ldafa_eval, mpta_eval]
  norm_num [MeasurementResult.mk.injEq]

/-- C2 amended: on the straight-leg scenario the computed angles are
HKA = 180 (not 0), JLCA = 0, LDFA = 90, MPTA = 90. -/
theorem scenario_amended :
    computeAngles scenarioStore = some ⟨180, 0, 90, 90⟩ := by
  show some (MeasurementResult.mk
        (angle_between_lines (100, 50) (100, 200) (100, 350) (100, 200))
        (angle_between_lines (90, 210) (110, 210) (90, 220) (110, 220))
        (angle_between_lines (100, 50) (100, 200) (90, 210) (110, 210))
        (angle_between_lines (100, 350) (100, 300) (90, 220) (110, 220))) =
      some ⟨180, 0, 90, 90⟩
  rw [hka_eval, jlca_eval, ldafa_eval, mpta_eval]

/- ### Hip-center circle fit (app.py lines 107-132) -/

/-- Sum of squared residuals of the Kåsa system built at app.py
lines 127-128: one design row `[2x, 2y, 1]` per boundary point against the
right-hand side `x² + y²`, evaluated at a candidate `(cx, cy, c)`. -/
def kasaResidual (pts : List (ℝ × ℝ)) (sol : ℝ × ℝ × ℝ) : ℝ :=
  (pts.map (fun p =>
    (2 * p.1 * sol.1 + 2 * p.2 * sol.2.1 + sol.2.2 -
      (p.1 ^ 2 + p.2 ^ 2)) ^ 2)).sum

/-- Squared Euclidean norm of a candidate solution vector. -/
def solNormSq (sol : ℝ × ℝ × ℝ) : ℝ := sol.1 ^ 2 + sol.2.1 ^ 2 + sol.2.2 ^ 2

/-- `numpy.linalg.lstsq A b` with `rcond=None` (app.py line 129) returns
the minimum-norm least-squares solution: it minimises the residual, and
among all minimisers it has the least Euclidean norm. It raises no error
for rank-deficient (e.g. collinear) systems. -/
def isLstsqSolution (pts : List (ℝ × ℝ)) (sol : ℝ × ℝ × ℝ) : Prop :=
  (∀ t, kasaResidual pts sol ≤ kasaResidual pts t) ∧
    (∀ t, kasaResidual pts t = kasaResidual pts sol →
      solNormSq sol ≤ solNormSq t)

/-- All points lie on one line `u*x + v*y = w` with `(u, v) ≠ (0, 0)`. -/
def collinearPts (pts : List (ℝ × ℝ)) : Prop :=
  ∃ u v w : ℝ, (u, v) ≠ (0, 0) ∧ ∀ p ∈ pts, u * p.1 + v * p.2 = w

/-- Per-session state: the landmark store, the collected hip boundary
points (`st.session_state.hip_points`) and the wizard position
(`st.session_state.current_point`), app.py lines 47-59 and 111-121. -/
structure SessionState where
  points : LandmarkSet
  hipPoints : List (ℝ × ℝ)
  currentPoint : ℕ

/-- The fresh session state created at app.py lines 47-58 (and re-created
after a `st.session_state.clear()`): empty store, no hip boundary points,
wizard at the first landmark. -/
def initState : SessionState :=
  ⟨⟨none, none, none, none, none, none, none, none⟩, [], 0⟩

/-- The "Start New Measurement" reset (app.py lines 176-178):
`st.session_state.clear()` drops every landmark and every hip boundary
point. -/
def resetStep (_ : SessionState) : SessionState := initState

/-- One press of "Calculate Hip Center" (app.py lines 124-132): the button
is offered only once at least 3 hip boundary points are collected; the
step solves the Kåsa system with `np.linalg.lstsq`, stores the fitted
center into the landmark store and advances the wizard. Nothing else in
the session state is touched. -/
def calcHipCenterStep (s s' : SessionState) : Prop :=
  3 ≤ s.hipPoints.length ∧
    ∃ cx cy c, isLstsqSolution s.hipPoints (cx, cy, c) ∧
      s' = { s with
              points := { s.points with hip_center := some (cx, cy) },
              currentPoint := s.currentPoint + 1 }

/- ### Residual lemmas -/

lemma kasaResidual_nonneg (pts : List (ℝ × ℝ)) (t : ℝ × ℝ × ℝ) :
    0 ≤ kasaResidual pts t := by
  unfold kasaResidual
  apply List.sum_nonneg
  intro x hx
  obtain ⟨p, -, rfl⟩ := List.mem_map.mp hx
  exact sq_nonneg _

lemma sum_zero_of_nonneg_all_zero :
    ∀ l : List ℝ, (∀ x ∈ l, 0 ≤ x) → l.sum = 0 → ∀ x ∈ l, x = 0 := by
  intro l
  induction l with
  | nil =>
      intro _ _ x hx
      cases hx
  | cons a l ih =>
      intro hnn hsum x hx
      have ha : 0 ≤ a := hnn a (by simp)
      have hl : 0 ≤ l.sum :=
        List.sum_nonneg (fun y hy => hnn y (by simp [hy]))
      rw [List.sum_cons] at hsum
      rcases List.mem_cons.mp hx with rfl | hx'
      · linarith
      · exact ih (fun y hy => hnn y (by simp [hy])) (by linarith) x hx'

/-- A zero Kåsa residual forces every row of the system to hold exactly. -/
lemma kasaResidual_eq_zero_rows (pts : List (ℝ × ℝ)) (cx cy c : ℝ)
    (h : kasaResidual pts (cx, cy, c) = 0) :
    ∀ p ∈ pts, 2 * p.1 * cx + 2 * p.2 * cy + c - (p.1 ^ 2 + p.2 ^ 2) = 0 := by
  intro p hp
  unfold kasaResidual at h
  have hnn : ∀ x ∈ pts.map (fun p =>
      (2 * p.1 * (cx, cy, c).1 + 2 * p.2 * (cx, cy, c).2.1 + (cx, cy, c).2.2 -
        (p.1 ^ 2 + p.2 ^ 2)) ^ 2), 0 ≤ x := by
    intro x hx
    obtain ⟨q, -, rfl⟩ := List.mem_map.mp hx
    exact sq_nonneg _
  have hz := sum_zero_of_nonneg_all_zero _ hnn h _ (List.mem_map_of_mem _ hp)
  dsimp only at hz
  exact sq_eq_zero_iff.mp hz

/-- Points exactly on a circle give a zero Kåsa residual at the exact
solution `(a, b, r² - a² - b²)`. -/
lemma kasaResidual_on_circle (pts : List (ℝ × ℝ)) (a b r : ℝ)
    (hcirc : ∀ p ∈ pts, (p.1 - a) ^ 2 + (p.2 - b) ^ 2 = r ^ 2) :
    kasaResidual pts (a, b, r ^ 2 - a ^ 2 - b ^ 2) = 0 := by
  unfold kasaResidual
  apply List.sum_eq_zero
  intro x hx
  obtain ⟨p, hp, rfl⟩ := List.mem_map.mp hx
  have h := hcirc p hp
  dsimp only
  have hz : 2 * p.1 * a + 2 * p.2 * b + (r ^ 2 - a ^ 2 - b ^ 2) -
      (p.1 ^ 2 + p.2 ^ 2) = 0 := by linear_combination -h
  rw [hz]
  ring

/- ### C6: recovery of a known center -/

/-- C6: for at least 3 non-collinear points lying exactly on a circle of
center `(a, b)` and radius `r`, any minimum-norm least-squares solution of
the Kåsa system has `(cx, cy) = (a, b)`: the fit recovers the center
exactly. -/
theorem circleFit_recovers_center (pts : List (ℝ × ℝ)) (a b r cx cy c : ℝ)
    (hlen : 3 ≤ pts.length)
    (hcirc : ∀ p ∈ pts, (p.1 - a) ^ 2 + (p.2 - b) ^ 2 = r ^ 2)
    (hncol : ¬collinearPts pts)
    (hfit : isLstsqSolution pts (cx, cy, c)) :
    cx = a ∧ cy = b := by
  have h0 : kasaResidual pts (a, b, r ^ 2 - a ^ 2 - b ^ 2) = 0 :=
    kasaResidual_on_circle pts a b r hcirc
  have hle := hfit.1 (a, b, r ^ 2 - a ^ 2 - b ^ 2)
  rw [h0] at hle
  have hres : kasaResidual pts (cx, cy, c) = 0 :=
    le_antisymm hle (kasaResidual_nonneg pts (cx, cy, c))
  have hrows := kasaResidual_eq_zero_rows pts cx cy c hres
  have hdiff : ∀ p ∈ pts,
      2 * p.1 * (cx - a) + 2 * p.2 * (cy - b) +
        (c - (r ^ 2 - a ^ 2 - b ^ 2)) = 0 := by
    intro p hp
    have h1 := hrows p hp
    have h2 := hcirc p hp
    linear_combination h1 + h2
  by_contra hne
  apply hncol
  refine ⟨2 * (cx - a), 2 * (cy - b), -(c - (r ^ 2 - a ^ 2 - b ^ 2)), ?_, ?_⟩
  · intro heq
    rw [Prod.mk.injEq] at heq
    exact hne ⟨by linarith [heq.1], by linarith [heq.2]⟩
  · intro p hp
    have := hdiff p hp
    linarith

/-- Three non-collinear points on the circle of center (5, 5), radius 10. -/
def circlePoints : List (ℝ × ℝ) := [(15, 5), (-5, 5), (5, 15)]

lemma circlePoints_on_circle :
    ∀ p ∈ circlePoints, (p.1 - 5) ^ 2 + (p.2 - 5) ^ 2 = (10 : ℝ) ^ 2 := by
  intro p hp
  simp only [circlePoints, List.mem_cons, List.not_mem_nil, or_false] at hp
  rcases hp with rfl | rfl | rfl <;> norm_num

lemma circlePoints_not_collinear : ¬collinearPts circlePoints := by
  rintro ⟨u, v, w, hne, hall⟩
  have h1 := hall (15, 5) (by simp [circlePoints])
  have h2 := hall (-5, 5) (by simp [circlePoints])
  have h3 := hall (5, 15) (by simp [circlePoints])
  dsimp only at h1 h2 h3
  have hu : u = 0 := by linarith
  have hv : v = 0 := by linarith
  exact hne (by rw [hu, hv])

lemma circlePoints_fit : isLstsqSolution circlePoints (5, 5, 50) := by
  constructor
  · intro t
    have h0 : kasaResidual circlePoints (5, 5, 50) = 0 := by
      have := kasaResidual_on_circle circlePoints 5 5 10 circlePoints_on_circle
      norm_num at this
      exact this
    rw [h0]
    exact kasaResidual_nonneg circlePoints t
  · intro t ht
    obtain ⟨cx, cy, c⟩ := t
    have h0 : kasaResidual circlePoints (5, 5, 50) = 0 := by
      have := kasaResidual_on_circle circlePoints 5 5 10 circlePoints_on_circle
      norm_num at this
      exact this
    rw [h0] at ht
    have hrows := kasaResidual_eq_zero_rows circlePoints cx cy c ht
    have h1 := hrows (15, 5) (by simp [circlePoints])
    have h2 := hrows (-5, 5) (by simp [circlePoints])
    have h3 := hrows (5, 15) (by simp [circlePoints])
    dsimp only at h1 h2 h3
    have hcx : cx = 5 := by linarith
    have hcy : cy = 5 := by linarith
    have hc : c = 50 := by linarith
    rw [hcx, hcy, hc]

/-- Witness for C6 at the spec's example: the three sampled points on the
circle of center (5, 5) and radius 10 are non-collinear, and the fitted
center (5, 5) indeed matches the known center. -/
theorem circleFit_recovers_center_witness : (5 : ℝ) = 5 ∧ (5 : ℝ) = 5 :=
  circleFit_recovers_center circlePoints 5 5 10 5 5 50
    (by norm_num [circlePoints]) circlePoints_on_circle
    circlePoints_not_collinear circlePoints_fit

/- ### C3, C7: behaviour of the circle-fit step on collinear input -/

/-- Three exactly collinear hip boundary points. -/
def collinearHipPoints : List (ℝ × ℝ) := [(0, 0), (1, 0), (2, 0)]

/-- A session state that has collected the three collinear boundary points
while marking `hip_center`. -/
def collinearState : SessionState :=
  ⟨⟨none, none, none, none, none, none, none, none⟩, collinearHipPoints, 0⟩

/-- The state after pressing "Calculate Hip Center" on `collinearState`:
the minimum-norm least-squares center (1, 0) is stored, the wizard
advances, and the boundary points stay in session state. -/
def collinearResult : SessionState :=
  ⟨⟨some (1, 0), none, none, none, none, none, none, none⟩,
   collinearHipPoints, 1⟩

lemma collinearHipPoints_collinear : collinearPts collinearHipPoints := by
  refine ⟨0, 1, 0, by norm_num [Prod.ext_iff], ?_⟩
  intro p hp
  simp only [collinearHipPoints, List.mem_cons, List.not_mem_nil,
    or_false] at hp
  rcases hp with rfl | rfl | rfl <;> norm_num

/-- On the collinear input, the rank-deficient Kåsa system has
minimum-norm least-squares solution `(1, 0, -1/3)`. -/
lemma collinear_fit :
    isLstsqSolution collinearHipPoints (1, 0, -(1 / 3)) := by
  constructor
  · intro t
    obtain ⟨cx, cy, c⟩ := t
    simp only [kasaResidual, collinearHipPoints, List.map_cons, List.map_nil,
      List.sum_cons, List.sum_nil]
    nlinarith [sq_nonneg (c + 2 * cx - 5 / 3), sq_nonneg (cx - 1)]
  · intro t ht
    obtain ⟨cx, cy, c⟩ := t
    simp only [kasaResidual, collinearHipPoints, List.map_cons, List.map_nil,
      List.sum_cons, List.sum_nil] at ht
    have hsq1 : (cx - 1) ^ 2 = 0 := by
      nlinarith [sq_nonneg (c + 2 * cx - 5 / 3), sq_nonneg (cx - 1)]
    have hsq2 : (c + 2 * cx - 5 / 3) ^ 2 = 0 := by
      nlinarith [sq_nonneg (c + 2 * cx - 5 / 3), sq_nonneg (cx - 1)]
    have hcx : cx = 1 := by
      have := sq_eq_zero_iff.mp hsq1
      linarith
    have hc : c = -(1 / 3) := by
      have := sq_eq_zero_iff.mp hsq2
      linarith
    simp only [solNormSq]
    rw [hcx, hc]
    nlinarith [sq_nonneg cy]

set_option maxHeartbeats 1000000 in
/-- Any minimum-norm least-squares solution on the collinear input equals
`(1, 0, -1/3)`. -/
lemma collinear_fit_unique (cx cy c : ℝ)
    (h : isLstsqSolution collinearHipPoints (cx, cy, c)) :
    cx = 1 ∧ cy = 0 ∧ c = -(1 / 3) := by
  have hle := h.1 (1, 0, -(1 / 3))
  have hval : kasaResidual collinearHipPoints (1, 0, -(1 / 3)) = 2 / 3 := by
    simp only [kasaResidual, collinearHipPoints, List.map_cons, List.map_nil,
      List.sum_cons, List.sum_nil]
    norm_num
  rw [hval] at hle
  simp only [kasaResidual, collinearHipPoints, List.map_cons, List.map_nil,
    List.sum_cons, List.sum_nil] at hle
  have hsq1 : (cx - 1) ^ 2 = 0 := by
    nlinarith [sq_nonneg (c + 2 * cx - 5 / 3), sq_nonneg (cx - 1)]
  have hsq2 : (c + 2 * cx - 5 / 3) ^ 2 = 0 := by
    nlinarith [sq_nonneg (c + 2 * cx - 5 / 3), sq_nonneg (cx - 1)]
  have hcx : cx = 1 := by
    have := sq_eq_zero_iff.mp hsq1
    linarith
  have hc : c = -(1 / 3) := by
    have := sq_eq_zero_iff.mp hsq2
    linarith
  -- minimum-norm among the minimisers pins down cy = 0
  have hres : kasaResidual collinearHipPoints (1, 0, -(1 / 3)) =
      kasaResidual collinearHipPoints (cx, cy, c) := by
    rw [hval]
    simp only [kasaResidual, collinearHipPoints, List.map_cons, List.map_nil,
      List.sum_cons, List.sum_nil]
    rw [hcx, hc]
    norm_num
  have hnorm := h.2 (1, 0, -(1 / 3)) hres
  simp only [solNormSq] at hnorm
  rw [hcx, hc] at hnorm
  have hcy : cy = 0 := by nlinarith [sq_nonneg cy]
  exact ⟨hcx, hcy, hc⟩

lemma collinearStep : calcHipCenterStep collinearState collinearResult := by
  refine ⟨by norm_num [collinearState, collinearHipPoints], 1, 0, -(1 / 3),
    collinear_fit, rfl⟩

/-- C3 counterexample: invoked on three exactly collinear boundary points,
the circle-fit step does not report any degenerate-input error: it
silently stores the finite minimum-norm least-squares center (1, 0) and
advances the wizard. -/
theorem circleFit_silent_on_collinear :
    collinearPts collinearHipPoints ∧
      calcHipCenterStep collinearState collinearResult ∧
      collinearResult.points.hip_center = some (1, 0) :=
  ⟨collinearHipPoints_collinear, collinearStep, rfl⟩

/-- C3 amended: the step with fewer than 3 boundary points is never
invoked (the button is guarded by `len >= 3`), and on exactly collinear
points the least-squares solve does not surface an error: every possible
outcome of the step on the collinear example stores the finite center
(1, 0). -/
theorem circleFit_guard_and_silent :
    (∀ s s' : SessionState, calcHipCenterStep s s' →
        3 ≤ s.hipPoints.length) ∧
      (∀ s' : SessionState, calcHipCenterStep collinearState s' →
        s'.points.hip_center = some (1, 0)) := by
  constructor
  · intro s s' h
    exact h.1
  · intro s' h
    obtain ⟨-, cx, cy, c, hfit, rfl⟩ := h
    obtain ⟨hcx, hcy, -⟩ := collinear_fit_unique cx cy c hfit
    rw [hcx, hcy]

/-- Witness for C3 amended, at the concrete collinear scenario. -/
theorem circleFit_guard_and_silent_witness :
    3 ≤ collinearState.hipPoints.length ∧
      collinearResult.points.hip_center = some (1, 0) :=
  ⟨circleFit_guard_and_silent.1 collinearState collinearResult collinearStep,
   circleFit_guard_and_silent.2 collinearResult collinearStep⟩

/-- C7 counterexample: after the circle-fit step has stored the fitted
center, the collected hip boundary points are still present in session
state, not cleared. -/
theorem hipPoints_retained_counterexample :
    calcHipCenterStep collinearState collinearResult ∧
      collinearResult.points.hip_center = some (1, 0) ∧
      collinearResult.hipPoints = collinearState.hipPoints ∧
      collinearResult.hipPoints ≠ [] := by
  refine ⟨collinearStep, rfl, rfl, ?_⟩
  simp [collinearResult, collinearHipPoints]

/-- C7 amended: the circle-fit step leaves the collected hip boundary
points untouched; they are discarded only by the full reset
(`st.session_state.clear()`). -/
theorem hipPoints_cleared_only_on_reset :
    (∀ s s' : SessionState, calcHipCenterStep s s' →
        s'.hipPoints = s.hipPoints) ∧
      ∀ s : SessionState, (resetStep s).hipPoints = [] := by
  constructor
  · intro s s' h
    obtain ⟨-, cx, cy, c, -, rfl⟩ := h
    rfl
  · intro s
    rfl

/-- Witness for C7 amended, at the concrete circle-fit step. -/
theorem hipPoints_cleared_only_on_reset_witness :
    collinearResult.hipPoints = collinearState.hipPoints ∧
      (resetStep collinearState).hipPoints = [] :=
  ⟨hipPoints_cleared_only_on_reset.1 collinearState collinearResult
      collinearStep,
   hipPoints_cleared_only_on_reset.2 collinearState⟩

end

end KneeAlign
